import Mathlib

/-!
Verification of the streaming HTML injection engine of `inject-body`
(`src/index.js`, function `main`).

The embedding is shallow: byte sequences are modelled as `List Char`
(the code decodes buffers with UTF-8 `toString` and re-encodes with
`Buffer.from`, and all offsets it uses live in the decoded string, so
characters are the faithful unit of account; the byte/character
distinction is irrelevant to every property below).  The mutable closure
variables of `main` (`buffers`, `willEnd`, `len`, `isHtml`, `parser`)
become the fields of `St`; calls the wrappers make to the saved
original `write`, `end` and `setHeader`, to `res.emit` and exceptions
escaping a wrapper become entries of `St.events` and updates of
`St.headers`.
-/

/-- A header value as accepted by `res.setHeader`: a single string or a
list of strings (`Array.isArray` branch, src/index.js line 101). -/
inductive HVal where
  | scalar (s : String)
  | multi (vs : List String)
deriving Repr, DecidableEq

/-- The downstream header store.  Node keeps one entry per
case-insensitive name; keys are stored lowercased. -/
def Headers := List (String × HVal)
deriving Repr, DecidableEq

/-- Lowercase a string character by character (`String.toLowerCase` /
Node header-name normalisation). -/
def lowerS (s : String) : String := String.mk (s.data.map Char.toLower)

/-- `res.setHeader` on the underlying response: replace the entry with
the same lowercased name, or append a fresh one. -/
def setH : Headers → String → HVal → Headers
  | [], k, v => [(lowerS k, v)]
  | (k₂, v₂) :: t, k, v =>
      if k₂ = lowerS k then (lowerS k, v) :: t else (k₂, v₂) :: setH t k v

/-- `res.getHeader`: case-insensitive lookup. -/
def getH : Headers → String → Option HVal
  | [], _ => none
  | (k₂, v₂) :: t, k => if k₂ = lowerS k then some v₂ else getH t k

/-- `res.hasHeader`. -/
def hasH (h : Headers) (k : String) : Bool := (getH h k).isSome

/-- JavaScript implicit stringification of a header value inside a
template literal: arrays are joined with commas. -/
def hvalToStr : HVal → String
  | .scalar s => s
  | .multi vs => String.intercalate "," vs

/-- A trailing argument of `res.write` / `res.end`: an encoding string
or a completion callback (`typeof x === 'function'`). -/
inductive Arg where
  | str (s : String)
  | fn
deriving Repr, DecidableEq

/-- Observable calls the wrappers make:
  `write`/`ended` are the saved original `res.write`/`res.end`,
  `error` is `res.emit('error', ...)`, `threw` is a synchronous
  exception escaping the wrapper, `cb` is the direct invocation of a
  caller-supplied callback (src/index.js line 156). -/
inductive Event where
  | write (data : List Char) (rest : List Arg)
  | ended (data : List Char) (rest : List Arg)
  | error (msg : List Char)
  | threw (msg : List Char)
  | cb
deriving Repr, DecidableEq

/-- The per-response state of `main`'s closure.  `injected` is the
ghost flag of the spec's ResponseTransformState (spec section 3); it is
set exactly when the splice happens and never read by the code. -/
structure St where
  buffers : List (List Char)
  willEnd : Bool
  len : Nat
  isHtml : Bool
  parserAlive : Bool
  injected : Bool
  headers : Headers
  events : List Event
deriving Repr, DecidableEq

/-- The engine configuration: the injection payload and the digest
string `etag || md5Base64(injectChunk)` (the md5 computation is a
crypto builtin, modelled as an opaque string). -/
structure Cfg where
  payload : List Char
  dg : String
deriving Repr, DecidableEq

/-- True for the characters that end an HTML tag name. -/
def tagNameEnd (c : Char) : Bool := c.isWhitespace || c == '/' || c == '>'

/-- Index of the first closing angle bracket, if any. -/
def idxOfGt : List Char → Option Nat
  | [] => none
  | c :: t => if c = '>' then some 0 else (idxOfGt t).map (· + 1)

/-- Modelled from the spec: the external streaming tokenizer
(htmlparser2, an excluded collaborator per spec sections 1 and 4.2),
reduced to the one event the code consumes, "first opening body tag
located".  Returns the offset immediately after the closing bracket of
the first opening tag whose name is `body` case-insensitively, or
`none` while no such complete tag exists.  Closing tags and other tag
names are skipped; attribute content is not inspected (spec 4.2), so a
quoted closing bracket inside an attribute and tags inside comments are
not distinguished. -/
def findBodyFrom : List Char → Nat → Option Nat
  | [], _ => none
  | c :: t, i =>
      if c = '<' then
        let name := t.takeWhile (fun d => ¬ tagNameEnd d)
        if name.map Char.toLower = "body".data then
          match idxOfGt (t.drop name.length) with
          | some j => some (i + 1 + name.length + j + 1)
          | none => none
        else findBodyFrom t (i + 1)
      else findBodyFrom t (i + 1)

/-- Locate the first opening body tag in the whole stream scanned so
far. -/
def findBody (s : List Char) : Option Nat := findBodyFrom s 0

/-- Strip leading and trailing whitespace from a character list. -/
def trimL (s : List Char) : List Char :=
  ((s.dropWhile Char.isWhitespace).reverse.dropWhile Char.isWhitespace).reverse

/-- Modelled from the spec: the external media-type parser
(`content-type` package, an excluded collaborator per spec section 1):
the media type is the part before the first semicolon, trimmed and
lowercased.  Input validation errors of the real parser are not
modelled. -/
def parseMediaType (s : String) : String :=
  lowerS (String.mk (trimL (s.data.takeWhile (· ≠ ';'))))

/-- JavaScript `Number(v)` followed by `Number.isInteger` and the
non-negativity test of src/index.js line 74, merged into one partial
parse: whitespace is trimmed, the empty string is 0, a digit string
(optionally with a leading plus) is its value, everything else (minus
signs, fractions, letters) yields `none`.  Exotic numeric forms
accepted by `Number` (hex, exponents) are not modelled. -/
def jsNonNegInt (s : String) : Option Nat :=
  let t := trimL s.data
  if t = [] then some 0
  else
    let u := if t.head? = some '+' then t.drop 1 else t
    if u = [] then none
    else if u.all Char.isDigit then
      some (u.foldl (fun a c => 10 * a + (c.toNat - 48)) 0)
    else none

/-- Pieces of the invalid Content-Length message (src/index.js lines
75-77); `util.inspect` quoting of the value is abstracted away. -/
def clMsgA : List Char := "According to ".data

/-- Middle piece of the invalid Content-Length message. -/
def clMsgB : List Char :=
  ", Content-Length header must be a non-negative integer https://tools.ietf.org/html/rfc7230#section-3.3.2, but it was ".data

/-- The message of the error emitted for an invalid Content-Length. -/
def clErrMsg (v : String) : List Char :=
  clMsgA ++ "RFC7230".data ++ clMsgB ++ v.data ++ ".".data

/-- Prefix of the non-UTF-8 encoding message (src/index.js lines
133-135). -/
def encMsgPre : List Char :=
  "HTML must be UTF-8 encoded https://github.com/w3c/html/pull/1273, but encoded in ".data

/-- The message of the error emitted for a non-UTF-8 write encoding. -/
def encErrMsg (e : String) : List Char := encMsgPre ++ e.data ++ ".".data

/-- Message of the TypeError thrown when `parser.end()` is invoked
after the parser has already been cleared (src/index.js line 119 with
`parser === null`). -/
def parserNullMsg : List Char :=
  "Cannot read property end of null".data

/-- `adjustContentLength` (src/index.js lines 71-86): validate the raw
value; emit an error and set nothing if invalid; otherwise set the
adjusted length only when the response is classified as HTML. -/
def adjustContentLength (cfg : Cfg) (st : St) (v : String) : St :=
  match jsNonNegInt v with
  | none => { st with events := st.events ++ [.error (clErrMsg v)] }
  | some n =>
      if st.isHtml then
        let adjusted : HVal := .scalar (toString (n + cfg.payload.length))
        { st with headers := setH st.headers "content-length" adjusted }
      else st

/-- Whether `pat` occurs as a contiguous subsequence of the list. -/
def containsSeq (pat : List Char) : List Char → Bool
  | [] => pat.isEmpty
  | c :: t => pat.isPrefixOf (c :: t) || containsSeq pat t

/-- The substring test of the regex `/utf-?8/ui` applied to the
lowercased encoding name. -/
def namesUtf8 (s : String) : Bool :=
  let l := s.data.map Char.toLower
  containsSeq "utf8".data l || containsSeq "utf-8".data l

/-- The guard of src/index.js line 132: an error is emitted when the
response is classified HTML and the first rest argument is a non-empty
encoding string that does not match `/utf-?8/ui`.  Returns the
offending encoding. -/
def encReject (st : St) (rest : List Arg) : Option String :=
  match rest.head? with
  | some (.str e) =>
      if st.isHtml ∧ e ≠ "" ∧ namesUtf8 e = false then some e else none
  | _ => none

/-- The `onopentag` handler fed through `parser.write` (src/index.js
lines 39-65 and 153): scan the full accumulation; when the first body
tag is complete, splice the payload in after it if the response is
HTML, and clear the parser either way. -/
def feedStream (cfg : Cfg) (st : St) : St :=
  let acc := st.buffers.flatten
  match findBody acc with
  | some i =>
      if st.isHtml then
        { st with
            buffers := [acc.take i ++ cfg.payload ++ acc.drop i],
            len := st.len + cfg.payload.length,
            parserAlive := false,
            injected := true }
      else { st with parserAlive := false }
  | none => st

/-- The `onopentag` handler fed through `parser.parseComplete`
(src/index.js line 151).  `parseComplete` resets the parser before
parsing, so only the final chunk is scanned and the resulting offset is
relative to that chunk, while the splice indexes the full accumulation;
the parser is always cleared afterwards (`onend`). -/
def feedComplete (cfg : Cfg) (st : St) (data : List Char) : St :=
  let acc := st.buffers.flatten
  let st₂ :=
    match findBody data with
    | some i =>
        if st.isHtml then
          { st with
              buffers := [acc.take i ++ cfg.payload ++ acc.drop i],
              len := st.len + cfg.payload.length,
              injected := true }
        else st
    | none => st
  { st₂ with parserAlive := false }

/-- The finalization branch of the wrapped write (src/index.js lines
168-176): a single pending chunk is passed to the original `end`
as is; otherwise the backlog is concatenated with `Buffer.concat`,
whose explicit total-length argument is the tracked `len` — the result
is truncated to `len` characters. -/
def finalizeEnd (st : St) (rest : List Arg) : St :=
  match st.buffers with
  | [b] => { st with events := st.events ++ [.ended b rest] }
  | bs => { st with events := st.events ++ [.ended (bs.flatten.take st.len) rest] }

/-- The wrapped `res.write` after the encoding guard (src/index.js
lines 142-179). -/
def writeCore (cfg : Cfg) (st : St) (data : List Char) (rest : List Arg) : St :=
  if st.parserAlive then
    let st₁ : St := { st with len := st.len + data.length, buffers := st.buffers ++ [data] }
    if st₁.willEnd then
      finalizeEnd (feedComplete cfg st₁ data) rest
    else
      let st₂ := feedStream cfg st₁
      if rest.getLast? = some .fn then { st₂ with events := st₂.events ++ [.cb] } else st₂
  else if st.willEnd = false ∧ st.buffers ≠ [] then
    let out := (st.buffers.flatten ++ data).take (st.len + data.length)
    { st with buffers := [], events := st.events ++ [.write out rest] }
  else if st.willEnd then
    finalizeEnd { st with buffers := st.buffers ++ [data] } rest
  else
    { st with events := st.events ++ [.write data rest] }

/-- The wrapped `res.write` (src/index.js lines 129-179). -/
def writeW (cfg : Cfg) (st : St) (data : List Char) (rest : List Arg) : St :=
  match encReject st rest with
  | some e => { st with events := st.events ++ [.error (encErrMsg e)] }
  | none => writeCore cfg st data rest

/-- The wrapped `res.setHeader` (src/index.js lines 100-124).  Array
values are forwarded unchanged; `content-length` is routed to
`adjustContentLength`; `etag` is digest-suffixed while HTML; a
`content-type` naming `text/html` flips the classification, any other
media type terminates the parser (throwing when it is already
cleared). -/
def setHeaderW (cfg : Cfg) (st : St) (name : String) (v : HVal) : St :=
  match v with
  | .multi vs => { st with headers := setH st.headers name (.multi vs) }
  | .scalar s =>
      let ln := lowerS name
      if ln = "content-length" then adjustContentLength cfg st s
      else if st.isHtml ∧ ln = "etag" then
        let suffixed : HVal := .scalar (s ++ cfg.dg)
        { st with headers := setH st.headers name suffixed }
      else if ln = "content-type" then
        if parseMediaType s = "text/html" then
          { st with isHtml := true, headers := setH st.headers name (.scalar s) }
        else if st.parserAlive then
          { st with parserAlive := false, headers := setH st.headers name (.scalar s) }
        else
          { st with events := st.events ++ [.threw parserNullMsg] }
      else { st with headers := setH st.headers name (.scalar s) }

/-- The data argument of `res.end`: absent, a lone callback, or data
with trailing arguments. -/
inductive EndArg where
  | noArg
  | fnOnly
  | dat (d : List Char) (rest : List Arg)
deriving Repr, DecidableEq

/-- The wrapped `res.end` (src/index.js lines 181-190): record that the
stream is ending and reroute to the wrapped write, a lone callback
becoming a zero-length write carrying it and absent data becoming a
zero-length chunk. -/
def endW (cfg : Cfg) (st : St) (a : EndArg) : St :=
  let st₁ := { st with willEnd := true }
  match a with
  | .noArg => writeW cfg st₁ [] []
  | .fnOnly => writeW cfg st₁ [] [.fn]
  | .dat d rest => writeW cfg st₁ d rest

/-- One caller action on the wrapped response. -/
inductive Op where
  | set (name : String) (v : HVal)
  | wr (data : List Char) (rest : List Arg)
  | endc (a : EndArg)
deriving Repr, DecidableEq

/-- Apply one caller action. -/
def applyOp (cfg : Cfg) (op : Op) (st : St) : St :=
  match op with
  | .set n v => setHeaderW cfg st n v
  | .wr d r => writeW cfg st d r
  | .endc a => endW cfg st a

/-- Run a sequence of caller actions. -/
def run (cfg : Cfg) (ops : List Op) (st : St) : St :=
  ops.foldl (fun s o => applyOp cfg o s) st

/-- The closure state right after the bindings of src/index.js lines
34-37, attached to a response whose headers are `h`. -/
def St.start (h : Headers) : St :=
  { buffers := [], willEnd := false, len := 0, isHtml := false,
    parserAlive := true, injected := false, headers := h, events := [] }

/-- `main` up to the wrapper installation (src/index.js lines 88-98):
attach-time inspection of pre-set headers.  The classification test is
strict string equality with the raw header value (line 89), the
content-length is only inspected when a content-type is present, and a
pre-set etag is suffixed immediately when the response is classified
HTML. -/
def attach (cfg : Cfg) (h : Headers) : St :=
  let st := St.start h
  let st :=
    if hasH h "content-type" then
      let hcls : Bool := decide (getH h "content-type" = some (.scalar "text/html"))
      let st₁ : St := { st with isHtml := hcls }
      if hasH h "content-length" then
        adjustContentLength cfg st₁ (hvalToStr ((getH h "content-length").getD (.scalar "")))
      else st₁
    else st
  if st.isHtml ∧ hasH st.headers "etag" then
    let old := hvalToStr ((getH st.headers "etag").getD (.scalar ""))
    { st with headers := setH st.headers "etag" (.scalar (old ++ cfg.dg)) }
  else st

/-- The spec's description of the splice (spec 4.3): the stream with
the payload inserted immediately after the closing bracket of the first
opening body tag, or unchanged when there is none. -/
def specInject (s payload : List Char) : List Char :=
  match findBody s with
  | some i => s.take i ++ payload ++ s.drop i
  | none => s

/-- The pendingLength invariant of spec section 3. -/
def lenInv (st : St) : Prop := st.len = (st.buffers.map List.length).sum

instance (st : St) : Decidable (lenInv st) := by
  unfold lenInv
  exact inferInstance

/-- A fixed configuration for concrete evaluations: payload `##`,
digest string `DG`. -/
def kcfg : Cfg := { payload := "##".data, dg := "DG" }

/-- A pre-attach header store declaring an HTML response. -/
def hHtml : Headers := [("content-type", HVal.scalar "text/html")]

theorem getH_setH_self (h : Headers) (k : String) (v : HVal) :
    getH (setH h k v) k = some v := by
  induction h with
  | nil => simp [setH, getH]
  | cons p t ih =>
      obtain ⟨k₂, v₂⟩ := p
      by_cases hk : k₂ = lowerS k
      · simp [setH, getH, hk]
      · simp [setH, getH, hk, ih]

theorem getH_setH_ne (h : Headers) (k q : String) (v : HVal)
    (hne : lowerS q ≠ lowerS k) :
    getH (setH h k v) q = getH h q := by
  have hne₂ : ¬ lowerS k = lowerS q := fun e => hne (Eq.symm e)
  induction h with
  | nil => simp [setH, getH, hne₂]
  | cons p t ih =>
      obtain ⟨k₂, v₂⟩ := p
      by_cases hk : k₂ = lowerS k
      · simp [setH, getH, hk, hne₂]
      · simp [setH, getH, hk, ih]

theorem run_cons (cfg : Cfg) (op : Op) (ops : List Op) (st : St) :
    run cfg (op :: ops) st = run cfg ops (applyOp cfg op st) := rfl

theorem finalizeEnd_isHtml (st : St) (rest : List Arg) :
    (finalizeEnd st rest).isHtml = st.isHtml := by
  unfold finalizeEnd
  split <;> simp

theorem finalizeEnd_parserAlive (st : St) (rest : List Arg) :
    (finalizeEnd st rest).parserAlive = st.parserAlive := by
  unfold finalizeEnd
  split <;> simp

theorem finalizeEnd_injected (st : St) (rest : List Arg) :
    (finalizeEnd st rest).injected = st.injected := by
  unfold finalizeEnd
  split <;> simp

theorem feedStream_isHtml (cfg : Cfg) (st : St) :
    (feedStream cfg st).isHtml = st.isHtml := by
  unfold feedStream
  dsimp only
  split
  · split <;> simp
  · rfl

theorem feedComplete_isHtml (cfg : Cfg) (st : St) (data : List Char) :
    (feedComplete cfg st data).isHtml = st.isHtml := by
  unfold feedComplete
  dsimp only
  split
  · split <;> simp
  · rfl

theorem writeCore_isHtml (cfg : Cfg) (st : St) (data : List Char) (rest : List Arg) :
    (writeCore cfg st data rest).isHtml = st.isHtml := by
  unfold writeCore
  dsimp only
  split
  · split
    · rw [finalizeEnd_isHtml, feedComplete_isHtml]
    · split <;> simp [feedStream_isHtml]
  · split
    · rfl
    · split
      · rw [finalizeEnd_isHtml]
      · rfl

theorem writeW_isHtml (cfg : Cfg) (st : St) (data : List Char) (rest : List Arg) :
    (writeW cfg st data rest).isHtml = st.isHtml := by
  unfold writeW
  split
  · simp
  · exact writeCore_isHtml ..

theorem writeCore_dead (cfg : Cfg) (st : St) (data : List Char) (rest : List Arg)
    (hA : st.parserAlive = false) :
    (writeCore cfg st data rest).parserAlive = false ∧
    (writeCore cfg st data rest).injected = st.injected := by
  unfold writeCore
  rw [hA]
  dsimp only
  simp only [Bool.false_eq_true, if_false]
  split
  · exact ⟨rfl, rfl⟩
  · split
    · exact ⟨finalizeEnd_parserAlive .., finalizeEnd_injected ..⟩
    · exact ⟨rfl, rfl⟩

theorem writeW_dead (cfg : Cfg) (st : St) (data : List Char) (rest : List Arg)
    (hA : st.parserAlive = false) :
    (writeW cfg st data rest).parserAlive = false ∧
    (writeW cfg st data rest).injected = st.injected := by
  unfold writeW
  split
  · simp [hA]
  · exact writeCore_dead cfg st data rest hA

theorem setHeaderW_state (cfg : Cfg) (st : St) (n : String) (v : HVal) :
    (setHeaderW cfg st n v).injected = st.injected ∧
    (setHeaderW cfg st n v).buffers = st.buffers ∧
    (setHeaderW cfg st n v).len = st.len ∧
    (setHeaderW cfg st n v).willEnd = st.willEnd := by
  unfold setHeaderW adjustContentLength
  cases v
  case scalar s =>
    dsimp only
    split
    · split
      · exact ⟨rfl, rfl, rfl, rfl⟩
      · split <;> exact ⟨rfl, rfl, rfl, rfl⟩
    · split
      · exact ⟨rfl, rfl, rfl, rfl⟩
      · split
        · split
          · exact ⟨rfl, rfl, rfl, rfl⟩
          · split <;> exact ⟨rfl, rfl, rfl, rfl⟩
        · exact ⟨rfl, rfl, rfl, rfl⟩
  case multi vs => exact ⟨rfl, rfl, rfl, rfl⟩

theorem setHeaderW_dead (cfg : Cfg) (st : St) (n : String) (v : HVal)
    (hA : st.parserAlive = false) :
    (setHeaderW cfg st n v).parserAlive = false := by
  unfold setHeaderW adjustContentLength
  rw [hA]
  cases v
  case scalar s =>
    dsimp only
    split
    · split
      · exact rfl
      · split <;> simp_all
    · split
      · exact rfl
      · split
        · split
          · exact rfl
          · simp
        · exact rfl
  case multi vs => exact rfl

theorem setHeaderW_isHtml_mono (cfg : Cfg) (st : St) (n : String) (v : HVal)
    (hH : st.isHtml = true) :
    (setHeaderW cfg st n v).isHtml = true := by
  unfold setHeaderW adjustContentLength
  rw [hH]
  cases v
  case scalar s =>
    dsimp only
    split
    · split
      · exact rfl
      · split <;> simp_all
    · split
      · exact rfl
      · split
        · split
          · exact rfl
          · split <;> exact rfl
        · exact rfl
  case multi vs => exact rfl

theorem applyOp_dead (cfg : Cfg) (op : Op) (st : St)
    (hA : st.parserAlive = false) (hI : st.injected = false) :
    (applyOp cfg op st).parserAlive = false ∧ (applyOp cfg op st).injected = false := by
  cases op with
  | set n v =>
      exact ⟨setHeaderW_dead cfg st n v hA, (setHeaderW_state cfg st n v).1.trans hI⟩
  | wr d r =>
      have h := writeW_dead cfg st d r hA
      exact ⟨h.1, h.2.trans hI⟩
  | endc a =>
      cases a with
      | noArg =>
          have h := writeW_dead cfg { st with willEnd := true } [] [] hA
          exact ⟨h.1, h.2.trans hI⟩
      | fnOnly =>
          have h := writeW_dead cfg { st with willEnd := true } [] [.fn] hA
          exact ⟨h.1, h.2.trans hI⟩
      | dat d rest =>
          have h := writeW_dead cfg { st with willEnd := true } d rest hA
          exact ⟨h.1, h.2.trans hI⟩

theorem noInject_run (cfg : Cfg) (ops : List Op) : ∀ st : St,
    st.parserAlive = false → st.injected = false →
    (run cfg ops st).parserAlive = false ∧ (run cfg ops st).injected = false := by
  induction ops with
  | nil => exact fun st h1 h2 => ⟨h1, h2⟩
  | cons op ops ih =>
      intro st h1 h2
      have hop := applyOp_dead cfg op st h1 h2
      rw [run_cons]
      exact ih _ hop.1 hop.2

theorem applyOp_isHtml_mono (cfg : Cfg) (op : Op) (st : St)
    (hH : st.isHtml = true) :
    (applyOp cfg op st).isHtml = true := by
  cases op with
  | set n v => exact setHeaderW_isHtml_mono cfg st n v hH
  | wr d r => exact (writeW_isHtml cfg st d r).trans hH
  | endc a =>
      cases a with
      | noArg => exact (writeW_isHtml cfg { st with willEnd := true } [] []).trans hH
      | fnOnly => exact (writeW_isHtml cfg { st with willEnd := true } [] [.fn]).trans hH
      | dat d rest => exact (writeW_isHtml cfg { st with willEnd := true } d rest).trans hH

theorem isHtml_mono_run (cfg : Cfg) (ops : List Op) : ∀ st : St,
    st.isHtml = true → (run cfg ops st).isHtml = true := by
  induction ops with
  | nil => exact fun st h => h
  | cons op ops ih =>
      intro st h
      rw [run_cons]
      exact ih _ (applyOp_isHtml_mono cfg op st h)

/-- C1: the claim that every HTML response containing a body tag has the
payload spliced into an otherwise unchanged stream fails on the code:
when the tag is found during a streamed write and the terminating end
call still carries data, `Buffer.concat(buffers, len)` uses the stale
`len` (not increased by the end chunk, src/index.js line 165) and
truncates the output, dropping the end data entirely.  Here the caller
writes `<body>` and ends with `rest`; downstream receives a single end
carrying only `<body>##`, while the specified splice of the full stream
is `<body>##rest`. -/
theorem C1_truncation_bug :
    (run kcfg [.wr "<body>".data [], .endc (.dat "rest".data [])]
        (attach kcfg hHtml)).events = [.ended "<body>##".data []] ∧
    specInject "<body>rest".data kcfg.payload = "<body>##rest".data := by
  decide

/-- C5: the claim that the single downstream completion call carries the
entire remaining backlog concatenated fails on the code: with a chunk
buffered while the locator was alive, then a non-HTML content-type
terminating the locator, an end call with data appends the end chunk to
the backlog without updating `len` (src/index.js line 165), and the
final `Buffer.concat(buffers, len)` truncates to `len`, so the
completion carries `a`, not the full backlog `abc`. -/
theorem C5_truncated_completion_bug :
    (run kcfg
        [.wr "a".data [], .set "content-type" (.scalar "text/plain"),
         .endc (.dat "bc".data [])]
        (attach kcfg [])).events = [.ended "a".data []] ∧
    ("a".data : List Char) ≠ "ab".data ++ "c".data := by
  decide

/-- C8: the pendingLength invariant (`len` equals the summed length of
`buffers`) fails on the code at two of the very points the claim lists:
after the post-resolution flush (src/index.js line 162 empties `buffers`
without resetting `len`) and after the end-time accumulation
(line 165 pushes a chunk without adding its length).  Both states are
reachable; the second one causes the truncation of C1/C5. -/
theorem C8_pending_length_invariant_bug :
    ((run kcfg [.wr "<body>".data [], .wr "z".data []] (attach kcfg hHtml)).buffers
        = [] ∧
     (run kcfg [.wr "<body>".data [], .wr "z".data []] (attach kcfg hHtml)).len = 8 ∧
     ¬ lenInv (run kcfg [.wr "<body>".data [], .wr "z".data []] (attach kcfg hHtml))) ∧
    ¬ lenInv (run kcfg [.wr "<body>".data [], .endc (.dat "xy".data [])]
        (attach kcfg hHtml)) := by
  decide

/-- C2, counterexample: a content-length set through the wrapped setter
while the response is not classified HTML is not forwarded unchanged as
the claim states — it is dropped entirely (`adjustContentLength` only
calls the saved setter when `isHtml`, src/index.js lines 83-85), so the
downstream response has no content-length header at all. -/
theorem C2_nonhtml_set_dropped_cex :
    (attach kcfg []).isHtml = false ∧
    getH (setHeaderW kcfg (attach kcfg []) "content-length" (.scalar "5")).headers
        "content-length" = none := by
  decide

/-- C3, counterexample: at attach time the content-type value is not
media-type parsed but compared by strict string equality
(src/index.js line 89), so a pre-set `text/html; charset=utf-8`, whose
parsed media type is `text/html`, leaves the response classified as not
HTML, contradicting the claim. -/
theorem C3_attach_no_parse_cex :
    parseMediaType "text/html; charset=utf-8" = "text/html" ∧
    (attach kcfg [("content-type", HVal.scalar "text/html; charset=utf-8")]).isHtml
        = false := by
  decide

theorem getH_setH_eqk (h : Headers) (k q : String) (v : HVal)
    (hq : lowerS q = lowerS k) :
    getH (setH h k v) q = some v := by
  induction h with
  | nil => simp [setH, getH, hq]
  | cons p t ih =>
      obtain ⟨k₂, v₂⟩ := p
      by_cases hk : k₂ = lowerS k
      · simp [setH, getH, hk, hq]
      · simp [setH, getH, hk, hq, ih]

theorem adjustCL_state (cfg : Cfg) (st : St) (v : String) :
    (adjustContentLength cfg st v).isHtml = st.isHtml ∧
    (adjustContentLength cfg st v).parserAlive = st.parserAlive ∧
    (adjustContentLength cfg st v).injected = st.injected ∧
    (adjustContentLength cfg st v).buffers = st.buffers ∧
    (adjustContentLength cfg st v).willEnd = st.willEnd ∧
    (adjustContentLength cfg st v).len = st.len := by
  unfold adjustContentLength
  split
  · exact ⟨rfl, rfl, rfl, rfl, rfl, rfl⟩
  · split <;> exact ⟨rfl, rfl, rfl, rfl, rfl, rfl⟩

theorem encReject_nonHtml (st : St) (rest : List Arg) (hH : st.isHtml = false) :
    encReject st rest = none := by
  unfold encReject
  cases hh : rest.head? with
  | none => rfl
  | some a =>
      cases a with
      | str e => simp [hH]
      | fn => rfl

/-- C6: a content-length mutation whose value does not parse as a
non-negative integer makes the wrapper emit an error on the response
error channel (not throw) whose message references the RFC 7230
constraint and contains the offending value, and the mutation sets no
header. -/
theorem C6_invalid_content_length_error (cfg : Cfg) (st : St) (v : String)
    (hv : jsNonNegInt v = none) :
    (setHeaderW cfg st "content-length" (.scalar v)).headers = st.headers ∧
    (setHeaderW cfg st "content-length" (.scalar v)).events
      = st.events ++ [.error (clErrMsg v)] ∧
    "RFC7230".data <:+: clErrMsg v ∧
    v.data <:+: clErrMsg v := by
  have hl : lowerS "content-length" = "content-length" := by decide
  refine ⟨?_, ?_,
    ⟨clMsgA, clMsgB ++ v.data ++ ".".data, by simp [clErrMsg]⟩,
    ⟨clMsgA ++ "RFC7230".data ++ clMsgB, ".".data, by simp [clErrMsg]⟩⟩
  · simp [setHeaderW, adjustContentLength, hl, hv]
  · simp [setHeaderW, adjustContentLength, hl, hv]

/-- Witness for C6 at the concrete invalid value `-1` (the value used
by the repository's own test). -/
theorem C6_invalid_content_length_error_witness :
    jsNonNegInt "-1" = none ∧
    ((setHeaderW kcfg (attach kcfg []) "content-length" (.scalar "-1")).headers
        = (attach kcfg []).headers ∧
     (setHeaderW kcfg (attach kcfg []) "content-length" (.scalar "-1")).events
        = (attach kcfg []).events ++ [.error (clErrMsg "-1")] ∧
     "RFC7230".data <:+: clErrMsg "-1" ∧
     ("-1" : String).data <:+: clErrMsg "-1") :=
  ⟨by decide, C6_invalid_content_length_error kcfg (attach kcfg []) "-1" (by decide)⟩

/-- C7: while classified HTML, a write whose first rest argument is a
non-empty encoding string not matching `/utf-?8/i` only emits an error
naming the encoding — nothing is buffered or forwarded; the check is
skipped (the write proceeds to the core path) when the response is not
classified HTML or when that argument position holds a callback. -/
theorem C7_encoding_rejection (cfg : Cfg) (st : St) (data : List Char)
    (rest : List Arg) (e : String) :
    (st.isHtml = true → rest.head? = some (.str e) → e ≠ "" → namesUtf8 e = false →
      writeW cfg st data rest = { st with events := st.events ++ [.error (encErrMsg e)] } ∧
      e.data <:+: encErrMsg e) ∧
    (st.isHtml = false → writeW cfg st data rest = writeCore cfg st data rest) ∧
    (rest.head? = some .fn → writeW cfg st data rest = writeCore cfg st data rest) := by
  refine ⟨?_, ?_, ?_⟩
  · intro hH hh hne hut
    refine ⟨?_, encMsgPre, ".".data, by simp [encErrMsg]⟩
    unfold writeW encReject
    rw [hh]
    dsimp only
    rw [if_pos ⟨hH, hne, hut⟩]
  · intro hH
    unfold writeW
    rw [encReject_nonHtml st rest hH]
  · intro hh
    unfold writeW encReject
    rw [hh]

/-- Witness for C7: the repository test's `ascii` write is rejected
with only the error event, and a callback in the encoding position
skips the check. -/
theorem C7_encoding_rejection_witness :
    (writeW kcfg (attach kcfg hHtml) "x".data [.str "ascii"]
      = { attach kcfg hHtml with
            events := (attach kcfg hHtml).events ++ [.error (encErrMsg "ascii")] } ∧
     ("ascii" : String).data <:+: encErrMsg "ascii") ∧
    writeW kcfg (attach kcfg hHtml) "x".data [.fn]
      = writeCore kcfg (attach kcfg hHtml) "x".data [.fn] :=
  ⟨(C7_encoding_rejection kcfg (attach kcfg hHtml) "x".data [.str "ascii"] "ascii").1
      (by decide) rfl (by decide) (by decide),
   (C7_encoding_rejection kcfg (attach kcfg hHtml) "x".data [.fn] "ascii").2.2 rfl⟩

/-- C9: if the locator completes the first body tag during a write made
while the response is not (yet) classified HTML, the parser is cleared
permanently and no injection ever happens afterwards, whatever later
operations (including setting a `text/html` content-type) occur. -/
theorem C9_premature_body_kills_locator (cfg : Cfg) (st : St) (data : List Char)
    (rest : List Arg) (ops : List Op) (i : Nat)
    (hA : st.parserAlive = true) (hH : st.isHtml = false) (hW : st.willEnd = false)
    (hI : st.injected = false)
    (hfind : findBody (st.buffers ++ [data]).flatten = some i) :
    (writeW cfg st data rest).parserAlive = false ∧
    (writeW cfg st data rest).injected = false ∧
    (run cfg ops (writeW cfg st data rest)).injected = false := by
  have key : (writeW cfg st data rest).parserAlive = false ∧
      (writeW cfg st data rest).injected = false := by
    unfold writeW
    rw [encReject_nonHtml st rest hH]
    unfold writeCore
    rw [hA]
    dsimp only
    rw [if_pos rfl, hW]
    simp only [Bool.false_eq_true, if_false]
    unfold feedStream
    dsimp only
    rw [hfind]
    dsimp only
    rw [hH]
    simp only [Bool.false_eq_true, if_false]
    split <;> exact ⟨rfl, hI⟩
  exact ⟨key.1, key.2, (noInject_run cfg ops _ key.1 key.2).2⟩

/-- Witness for C9: attach with no headers, write a complete body tag,
then set `text/html` and write another body tag and end — the payload
is never injected. -/
theorem C9_premature_body_kills_locator_witness :
    (writeW kcfg (attach kcfg []) "<body>".data []).parserAlive = false ∧
    (writeW kcfg (attach kcfg []) "<body>".data []).injected = false ∧
    (run kcfg
        [.set "content-type" (.scalar "text/html"), .wr "<body>hi".data [],
         .endc .noArg]
        (writeW kcfg (attach kcfg []) "<body>".data [])).injected = false :=
  C9_premature_body_kills_locator kcfg (attach kcfg []) "<body>".data []
    [.set "content-type" (.scalar "text/html"), .wr "<body>hi".data [], .endc .noArg]
    6 (by decide) (by decide) (by decide) (by decide) (by decide)

/-- C10: classification is monotone — once HTML, a response stays HTML
across any further operations; a later non-HTML content-type only
terminates the still-active locator while leaving the classification in
place, so a subsequent etag set is still digest-suffixed and a
subsequent content-length set is still payload-adjusted. -/
theorem C10_classification_monotone (cfg : Cfg) (ops : List Op) (st : St)
    (v E L : String) (n : Nat)
    (hH : st.isHtml = true) (hA : st.parserAlive = true)
    (hv : parseMediaType v ≠ "text/html") (hL : jsNonNegInt L = some n) :
    (run cfg ops st).isHtml = true ∧
    (setHeaderW cfg st "content-type" (.scalar v)).isHtml = true ∧
    (setHeaderW cfg st "content-type" (.scalar v)).parserAlive = false ∧
    getH (setHeaderW cfg (setHeaderW cfg st "content-type" (.scalar v)) "etag"
        (.scalar E)).headers "etag" = some (.scalar (E ++ cfg.dg)) ∧
    getH (setHeaderW cfg (setHeaderW cfg st "content-type" (.scalar v))
        "content-length" (.scalar L)).headers "content-length"
      = some (.scalar (toString (n + cfg.payload.length))) := by
  have hct1 : ¬ lowerS "content-type" = "content-length" := by decide
  have hct3 : lowerS "content-type" = "content-type" := by decide
  have hset : setHeaderW cfg st "content-type" (.scalar v)
      = { st with
            parserAlive := false,
            headers := setH st.headers "content-type" (.scalar v) } := by
    unfold setHeaderW
    dsimp only
    rw [if_neg hct1, if_neg ?_, if_pos hct3, if_neg hv, if_pos hA]
    intro hc
    rw [hct3] at hc
    exact absurd hc.2 (by decide)
  refine ⟨isHtml_mono_run cfg ops st hH, ?_, ?_, ?_, ?_⟩
  · rw [hset]
    exact hH
  · rw [hset]
  · rw [hset]
    unfold setHeaderW
    dsimp only
    rw [if_neg ?_, if_pos ⟨hH, by decide⟩]
    · exact getH_setH_eqk _ "etag" "etag" _ rfl
    · decide
  · rw [hset]
    unfold setHeaderW adjustContentLength
    dsimp only
    rw [if_pos (by decide), hL]
    dsimp only
    rw [if_pos hH]
    exact getH_setH_eqk _ "content-length" "content-length" _ rfl

/-- Witness for C10 at a concrete HTML response. -/
theorem C10_classification_monotone_witness :
    (run kcfg [.wr "<body>".data []] (attach kcfg hHtml)).isHtml = true ∧
    (setHeaderW kcfg (attach kcfg hHtml) "content-type"
        (.scalar "text/plain")).isHtml = true ∧
    (setHeaderW kcfg (attach kcfg hHtml) "content-type"
        (.scalar "text/plain")).parserAlive = false ∧
    getH (setHeaderW kcfg (setHeaderW kcfg (attach kcfg hHtml) "content-type"
        (.scalar "text/plain")) "etag" (.scalar "W")).headers "etag"
      = some (.scalar ("W" ++ kcfg.dg)) ∧
    getH (setHeaderW kcfg (setHeaderW kcfg (attach kcfg hHtml) "content-type"
        (.scalar "text/plain")) "content-length" (.scalar "10")).headers
        "content-length"
      = some (.scalar (toString (10 + kcfg.payload.length))) :=
  C10_classification_monotone kcfg [.wr "<body>".data []] (attach kcfg hHtml)
    "text/plain" "W" "10" 10 (by decide) (by decide) (by decide) (by decide)

theorem adjustCL_parserAlive (cfg : Cfg) (st : St) (v : String) :
    (adjustContentLength cfg st v).parserAlive = st.parserAlive :=
  (adjustCL_state cfg st v).2.1

theorem adjustCL_isHtml (cfg : Cfg) (st : St) (v : String) :
    (adjustContentLength cfg st v).isHtml = st.isHtml :=
  (adjustCL_state cfg st v).1

theorem adjustCL_injected (cfg : Cfg) (st : St) (v : String) :
    (adjustContentLength cfg st v).injected = st.injected :=
  (adjustCL_state cfg st v).2.2.1

theorem attach_parserAlive (cfg : Cfg) (h0 : Headers) :
    (attach cfg h0).parserAlive = true := by
  unfold attach St.start
  dsimp only
  repeat' split
  all_goals simp [adjustCL_parserAlive]

theorem attach_injected (cfg : Cfg) (h0 : Headers) :
    (attach cfg h0).injected = false := by
  unfold attach St.start
  dsimp only
  repeat' split
  all_goals simp [adjustCL_injected]

theorem attach_isHtml_of_ct (cfg : Cfg) (h0 : Headers) (s : String)
    (hs : getH h0 "content-type" = some (.scalar s)) :
    (attach cfg h0).isHtml = decide (s = "text/html") := by
  have h1 : hasH h0 "content-type" = true := by rw [hasH, hs]; rfl
  have h2 : decide (getH h0 "content-type" = some (HVal.scalar "text/html"))
      = decide (s = "text/html") := by
    rw [hs, decide_eq_decide]
    simp
  unfold attach St.start
  dsimp only
  rw [h1, h2]
  repeat' split
  all_goals simp_all [adjustCL_isHtml]

theorem adjustCL_html (cfg : Cfg) (st : St) (v : String) (n : Nat)
    (hv : jsNonNegInt v = some n) (hH : st.isHtml = true) :
    adjustContentLength cfg st v
      = { st with headers := setH st.headers "content-length" (.scalar (toString (n + cfg.payload.length))) } := by
  unfold adjustContentLength
  rw [hv]
  dsimp only
  rw [if_pos hH]

theorem adjustCL_nonHtml (cfg : Cfg) (st : St) (v : String) (n : Nat)
    (hv : jsNonNegInt v = some n) (hH : st.isHtml = false) :
    adjustContentLength cfg st v = st := by
  unfold adjustContentLength
  rw [hv]
  dsimp only
  rw [if_neg (by rw [hH]; simp)]

theorem adjustCL_err (cfg : Cfg) (st : St) (v : String)
    (hv : jsNonNegInt v = none) :
    adjustContentLength cfg st v
      = { st with events := st.events ++ [.error (clErrMsg v)] } := by
  unfold adjustContentLength
  rw [hv]

/-- C2 (amended): when a content-length value parses as a non-negative
integer, an HTML-classified response gets the payload-adjusted value,
both through the wrapped setter and at attach time for a pre-set
content-type and content-length pair; a response that is not classified
HTML keeps a pre-set value unchanged at attach time, but a
content-length set through the wrapped setter is validated and then
dropped — that mutation sets no header at all (src/index.js
lines 83-85), rather than forwarding the original value. -/
theorem C2_content_length_adjustment (cfg : Cfg) (st : St) (h0 : Headers)
    (v c : String) (n : Nat) (hv : jsNonNegInt v = some n) :
    (st.isHtml = true →
      getH (setHeaderW cfg st "content-length" (.scalar v)).headers "content-length"
        = some (.scalar (toString (n + cfg.payload.length)))) ∧
    (st.isHtml = false → setHeaderW cfg st "content-length" (.scalar v) = st) ∧
    (getH h0 "content-type" = some (.scalar "text/html") →
      getH h0 "content-length" = some (.scalar v) →
      getH (attach cfg h0).headers "content-length"
        = some (.scalar (toString (n + cfg.payload.length)))) ∧
    (getH h0 "content-type" = some (.scalar c) → c ≠ "text/html" →
      getH h0 "content-length" = some (.scalar v) →
      getH (attach cfg h0).headers "content-length" = some (.scalar v)) := by
  have hl : lowerS "content-length" = "content-length" := by decide
  have hne1 : lowerS "etag" ≠ lowerS "content-length" := by decide
  have hne2 : lowerS "content-length" ≠ lowerS "etag" := by decide
  refine ⟨?_, ?_, ?_, ?_⟩
  · intro hH
    unfold setHeaderW
    dsimp only
    rw [if_pos hl, adjustCL_html cfg st v n hv hH]
    exact getH_setH_eqk _ _ _ _ rfl
  · intro hH
    unfold setHeaderW
    dsimp only
    rw [if_pos hl, adjustCL_nonHtml cfg st v n hv hH]
  · intro hct hcl
    have h1 : hasH h0 "content-type" = true := by rw [hasH, hct]; rfl
    have h2 : hasH h0 "content-length" = true := by rw [hasH, hcl]; rfl
    have h3 : decide (getH h0 "content-type" = some (HVal.scalar "text/html")) = true := by
      rw [hct]; exact decide_eq_true rfl
    unfold attach St.start
    dsimp only
    rw [h1, h2, h3, hcl]
    rw [if_pos rfl, if_pos rfl]
    dsimp only [Option.getD, hvalToStr]
    rw [adjustCL_html cfg _ v n hv rfl]
    dsimp only
    have h4 : hasH (setH h0 "content-length"
          (HVal.scalar (toString (n + cfg.payload.length)))) "etag"
        = hasH h0 "etag" := by
      rw [hasH, hasH, getH_setH_ne _ _ _ _ hne1]
    by_cases h5 : hasH h0 "etag" = true
    · rw [if_pos ⟨rfl, h4.trans h5⟩]
      dsimp only
      rw [getH_setH_ne _ _ _ _ hne2]
      exact getH_setH_eqk _ _ _ _ rfl
    · rw [if_neg (fun hcond => h5 (h4 ▸ hcond.2))]
      exact getH_setH_eqk _ _ _ _ rfl
  · intro hct hc hcl
    have h1 : hasH h0 "content-type" = true := by rw [hasH, hct]; rfl
    have h2 : hasH h0 "content-length" = true := by rw [hasH, hcl]; rfl
    have h3 : decide (getH h0 "content-type" = some (HVal.scalar "text/html")) = false := by
      rw [hct]
      simp [hc]
    unfold attach St.start
    dsimp only
    rw [h1, h2, h3, hcl]
    rw [if_pos rfl, if_pos rfl]
    dsimp only [Option.getD, hvalToStr]
    rw [adjustCL_nonHtml cfg _ v n hv rfl]
    dsimp only
    rw [if_neg (fun hcond => by simpa using hcond.1)]
    exact hcl

/-- Witness for C2 at concrete responses: the adjusted wrapped set and
attach-time set for HTML, the dropped wrapped set for non-HTML, and the
unchanged attach-time value for non-HTML. -/
theorem C2_content_length_adjustment_witness :
    getH (setHeaderW kcfg (attach kcfg hHtml) "content-length"
        (.scalar "39")).headers "content-length"
      = some (.scalar (toString (39 + kcfg.payload.length))) ∧
    setHeaderW kcfg (attach kcfg []) "content-length" (.scalar "39")
      = attach kcfg [] ∧
    getH (attach kcfg [("content-type", HVal.scalar "text/html"),
        ("content-length", HVal.scalar "39")]).headers "content-length"
      = some (.scalar (toString (39 + kcfg.payload.length))) ∧
    getH (attach kcfg [("content-type", HVal.scalar "text/plain"),
        ("content-length", HVal.scalar "39")]).headers "content-length"
      = some (.scalar "39") :=
  ⟨(C2_content_length_adjustment kcfg (attach kcfg hHtml) [] "39" "x" 39
      (by decide)).1 (by decide),
   (C2_content_length_adjustment kcfg (attach kcfg []) [] "39" "x" 39
      (by decide)).2.1 (by decide),
   (C2_content_length_adjustment kcfg (attach kcfg [])
      [("content-type", HVal.scalar "text/html"),
       ("content-length", HVal.scalar "39")] "39" "x" 39
      (by decide)).2.2.1 (by decide) (by decide),
   (C2_content_length_adjustment kcfg (attach kcfg [])
      [("content-type", HVal.scalar "text/plain"),
       ("content-length", HVal.scalar "39")] "39" "text/plain" 39
      (by decide)).2.2.2 (by decide) (by decide) (by decide)⟩

/-- C3 (amended): at attach time the raw content-type value is compared
by strict string equality with `text/html` — no media-type parsing —
and the locator is left running; through the wrapped setter the media
type is parsed: `text/html` switches classification to HTML, any other
media type leaves the classification unchanged (it does not become a
distinct NotHtml state) and terminates the still-active locator, after
which no injection ever occurs for the response. -/
theorem C3_classification_rules (cfg : Cfg) (st : St) (h0 : Headers)
    (s v w : String) (ops : List Op)
    (hs : getH h0 "content-type" = some (.scalar s))
    (hv : parseMediaType v = "text/html")
    (hw : parseMediaType w ≠ "text/html")
    (hA : st.parserAlive = true) (hI : st.injected = false) :
    ((attach cfg h0).isHtml = decide (s = "text/html") ∧
     (attach cfg h0).parserAlive = true) ∧
    (setHeaderW cfg st "content-type" (.scalar v)).isHtml = true ∧
    ((setHeaderW cfg st "content-type" (.scalar w)).parserAlive = false ∧
     (setHeaderW cfg st "content-type" (.scalar w)).isHtml = st.isHtml ∧
     (run cfg ops (setHeaderW cfg st "content-type" (.scalar w))).injected = false) := by
  refine ⟨⟨attach_isHtml_of_ct cfg h0 s hs, attach_parserAlive cfg h0⟩, ?_, ?_⟩
  · unfold setHeaderW
    dsimp only
    rw [if_neg (by decide), if_neg (fun hc => absurd hc.2 (by decide)),
      if_pos (by decide), if_pos hv]
  · have hset : setHeaderW cfg st "content-type" (.scalar w)
        = { st with
              parserAlive := false,
              headers := setH st.headers "content-type" (.scalar w) } := by
      unfold setHeaderW
      dsimp only
      rw [if_neg (by decide), if_neg (fun hc => absurd hc.2 (by decide)),
        if_pos (by decide), if_neg hw, if_pos hA]
    refine ⟨by rw [hset], by rw [hset], ?_⟩
    have h₁ : (setHeaderW cfg st "content-type" (.scalar w)).parserAlive = false := by
      rw [hset]
    have h₂ : (setHeaderW cfg st "content-type" (.scalar w)).injected = false :=
      (setHeaderW_state cfg st "content-type" (.scalar w)).1.trans hI
    exact (noInject_run cfg ops _ h₁ h₂).2

/-- Witness for C3: a parameterised attach-time content-type, a
mixed-case wrapped `Text/HTML`, and a wrapped `text/plain` followed by
body writes that never inject. -/
theorem C3_classification_rules_witness :
    ((attach kcfg [("content-type", HVal.scalar "text/html; charset=utf-8")]).isHtml
        = decide (("text/html; charset=utf-8" : String) = "text/html") ∧
     (attach kcfg [("content-type", HVal.scalar "text/html; charset=utf-8")]).parserAlive
        = true) ∧
    (setHeaderW kcfg (attach kcfg []) "content-type" (.scalar "Text/HTML")).isHtml
      = true ∧
    ((setHeaderW kcfg (attach kcfg []) "content-type"
        (.scalar "text/plain")).parserAlive = false ∧
     (setHeaderW kcfg (attach kcfg []) "content-type" (.scalar "text/plain")).isHtml
        = (attach kcfg []).isHtml ∧
     (run kcfg [.wr "<body>".data [], .endc .noArg]
        (setHeaderW kcfg (attach kcfg []) "content-type"
          (.scalar "text/plain"))).injected = false) :=
  C3_classification_rules kcfg (attach kcfg [])
    [("content-type", HVal.scalar "text/html; charset=utf-8")]
    "text/html; charset=utf-8" "Text/HTML" "text/plain"
    [.wr "<body>".data [], .endc .noArg]
    (by decide) (by decide) (by decide) (by decide) (by decide)

/-- C4: while classified HTML, setting an etag through the wrapped
setter forwards the value with the digest appended, and an etag already
present at attach time is suffixed immediately; the suffixing is
independent of whether a body tag is ever found (the ghost injected
flag is untouched by the mutation). -/
theorem C4_etag_suffixed (cfg : Cfg) (st : St) (h0 : Headers)
    (name E E₂ : String)
    (hH : st.isHtml = true) (hn : lowerS name = "etag")
    (hct : getH h0 "content-type" = some (.scalar "text/html"))
    (het : getH h0 "etag" = some (.scalar E₂)) :
    getH (setHeaderW cfg st name (.scalar E)).headers "etag"
      = some (.scalar (E ++ cfg.dg)) ∧
    (setHeaderW cfg st name (.scalar E)).injected = st.injected ∧
    getH (attach cfg h0).headers "etag" = some (.scalar (E₂ ++ cfg.dg)) := by
  refine ⟨?_, (setHeaderW_state cfg st name (.scalar E)).1, ?_⟩
  · unfold setHeaderW
    dsimp only
    rw [if_neg (by rw [hn]; decide), if_pos ⟨hH, hn⟩]
    dsimp only
    refine getH_setH_eqk _ _ _ _ ?_
    rw [hn]
    decide
  · have h1 : hasH h0 "content-type" = true := by rw [hasH, hct]; rfl
    have h3 : decide (getH h0 "content-type" = some (HVal.scalar "text/html"))
        = true := by
      rw [hct]; exact decide_eq_true rfl
    have h5 : hasH h0 "etag" = true := by rw [hasH, het]; rfl
    have hne1 : lowerS "etag" ≠ lowerS "content-length" := by decide
    unfold attach St.start
    dsimp only
    rw [h1, h3]
    rw [if_pos rfl]
    by_cases h2 : hasH h0 "content-length" = true
    · rw [if_pos h2]
      rcases hj : jsNonNegInt (hvalToStr ((getH h0 "content-length").getD
          (HVal.scalar ""))) with _ | m
      · rw [adjustCL_err cfg _ _ hj]
        dsimp only
        rw [if_pos ⟨rfl, h5⟩]
        dsimp only
        rw [het]
        dsimp only [Option.getD, hvalToStr]
        exact getH_setH_eqk _ _ _ _ rfl
      · rw [adjustCL_html cfg _ _ m hj rfl]
        dsimp only
        have h4 : hasH (setH h0 "content-length"
              (HVal.scalar (toString (m + cfg.payload.length)))) "etag"
            = hasH h0 "etag" := by
          rw [hasH, hasH, getH_setH_ne _ _ _ _ hne1]
        rw [if_pos ⟨rfl, h4.trans h5⟩]
        dsimp only
        rw [getH_setH_ne _ _ _ _ hne1, het]
        dsimp only [Option.getD, hvalToStr]
        exact getH_setH_eqk _ _ _ _ rfl
    · rw [if_neg h2]
      rw [if_pos ⟨rfl, h5⟩]
      dsimp only
      rw [het]
      dsimp only [Option.getD, hvalToStr]
      exact getH_setH_eqk _ _ _ _ rfl

/-- Witness for C4: a mixed-case wrapped `ETag` set on an HTML
response, and an attach with pre-set content-type, content-length and
etag mirroring the repository's own test fixture. -/
theorem C4_etag_suffixed_witness :
    getH (setHeaderW kcfg (attach kcfg hHtml) "ETag"
        (.scalar "W/5b61")).headers "etag"
      = some (.scalar ("W/5b61" ++ kcfg.dg)) ∧
    (setHeaderW kcfg (attach kcfg hHtml) "ETag" (.scalar "W/5b61")).injected
      = (attach kcfg hHtml).injected ∧
    getH (attach kcfg [("content-type", HVal.scalar "text/html"),
        ("content-length", HVal.scalar "39"),
        ("etag", HVal.scalar "abc")]).headers "etag"
      = some (.scalar ("abc" ++ kcfg.dg)) :=
  C4_etag_suffixed kcfg (attach kcfg hHtml)
    [("content-type", HVal.scalar "text/html"),
     ("content-length", HVal.scalar "39"), ("etag", HVal.scalar "abc")]
    "ETag" "W/5b61" "abc" (by decide) (by decide) (by decide) (by decide)
